import Mathlib

/-!
Verification development for the HAR replay adapter (`src/spoofbot/adapter/har.py`).

The adapter replays recorded HTTP traffic: `send` scans the ordered entry store,
matches the live request against each recorded request (strictly or loosely),
optionally deletes the consumed entry, and returns the recorded response.

The Python code is shallowly embedded below.  Header collections on prepared
requests are `CaseInsensitiveDict`s, embedded as ordered association lists whose
membership/lookup tests compare names case-insensitively; converting such a
dict with `dict(...)` yields the original-cased names in insertion order, and
Python's `dict.keys()` view equality compares *sets* of keys (order-insensitive),
which the embedding reproduces faithfully in `do_keys_match`.
-/

namespace Har

/-- Ordered sequence of header name/value pairs, as held by a
`CaseInsensitiveDict` (names are unique up to lower-casing). -/
abbrev HeaderList := List (String × String)

/-- Lower-casing of a (header-name) string, character by character; embeds
Python's `str.lower()` on the ASCII names involved. -/
def strLower (s : String) : String := String.mk (s.data.map Char.toLower)

/-- Case-insensitive name comparison used by `CaseInsensitiveDict`. -/
def lowerEq (a b : String) : Bool := strLower a == strLower b

/-- Embeds `name in d` on a `CaseInsensitiveDict`. -/
def ciMem (hs : HeaderList) (name : String) : Bool :=
  hs.any (fun p => lowerEq p.1 name)

/-- Embeds `d[name]` / `d.get(name)` on a `CaseInsensitiveDict`. -/
def ciGet (hs : HeaderList) (name : String) : Option String :=
  (hs.find? (fun p => lowerEq p.1 name)).map Prod.snd

/-- Embeds `d.get(name, dflt)` on a `CaseInsensitiveDict`. -/
def ciGetD (hs : HeaderList) (name dflt : String) : String :=
  (ciGet hs name).getD dflt

/-- The ordered list of header names, i.e. `list(dict(d).keys())`. -/
def headerNames (hs : HeaderList) : List String := hs.map Prod.fst

/-- Set equality of two key lists.  Python's `dict.keys() == dict.keys()`
compares the views as sets (element equality is exact string equality on the
original-cased names). -/
def listSetEq (xs ys : List String) : Bool :=
  xs.all (fun k => ys.contains k) && ys.all (fun k => xs.contains k)

/-- Embeds `HarAdapter._do_keys_match` (har.py lines 114-123): the check
`dict(request_headers).keys() != dict(cached_headers).keys()` returns `False`
on inequality.  Since Python key views compare as sets, this is set equality
of the header-name lists. -/
def do_keys_match (request_headers cached_headers : HeaderList) : Bool :=
  listSetEq (headerNames request_headers) (headerNames cached_headers)

/-- The three diagnostic categories collected by `HarAdapter._are_dicts_same`
(har.py lines 125-158): keys of `cached` absent from the live request
(`missing`), keys present in both with unequal values (`mismatching`), and
keys of the live request absent from `cached` (`redundant`). -/
structure DictDiag where
  missing : List String
  mismatching : List String
  redundant : List String
deriving DecidableEq

/-- Dictionary lookup parameterised by the key-equality test: exact string
equality for plain cookie dicts, case-insensitive for header dicts. -/
def dlookup (eqk : String → String → Bool) (d : List (String × String))
    (k : String) : Option String :=
  (d.find? (fun p => eqk p.1 k)).map Prod.snd

/-- Embeds the diagnostic computation of `HarAdapter._are_dicts_same`
(har.py lines 125-158), iterating `cached_dict` for missing/mismatching keys
and `request_dict` for redundant keys. -/
def are_dicts_same_diag (eqk : String → String → Bool)
    (request_dict cached_dict : List (String × String)) : DictDiag where
  missing :=
    (cached_dict.filter (fun p => (dlookup eqk request_dict p.1).isNone)).map Prod.fst
  mismatching :=
    (cached_dict.filter (fun p =>
      match dlookup eqk request_dict p.1 with
      | some rv => rv != p.2
      | none => false)).map Prod.fst
  redundant :=
    (request_dict.filter (fun p => (dlookup eqk cached_dict p.1).isNone)).map Prod.fst

/-- Verdict of `_are_dicts_same`: `True` exactly when all three diagnostic
categories are empty. -/
def dict_verdict (d : DictDiag) : Bool :=
  d.missing.isEmpty && d.redundant.isEmpty && d.mismatching.isEmpty

/-- Embeds `_are_dicts_same`'s return value. -/
def are_dicts_same (eqk : String → String → Bool)
    (request_dict cached_dict : List (String × String)) : Bool :=
  dict_verdict (are_dicts_same_diag eqk request_dict cached_dict)

/-- Splits a character list at every occurrence of the separator. -/
def splitOnCharAux (sep : Char) (cur : List Char) : List Char → List (List Char)
  | [] => [cur.reverse]
  | c :: rest =>
    if c == sep then cur.reverse :: splitOnCharAux sep [] rest
    else splitOnCharAux sep (c :: cur) rest

/-- Splits a character list on a separator character. -/
def splitOnChar (sep : Char) (l : List Char) : List (List Char) :=
  splitOnCharAux sep [] l

/-- Parses one `name=value` cookie fragment, dropping the leading spaces left
by the `"; "` separators. -/
def parseCookiePair (part : List Char) : String × String :=
  let part := part.dropWhile (fun c => c == ' ')
  (String.mk (part.takeWhile (fun c => c ≠ '=')),
   String.mk ((part.dropWhile (fun c => c ≠ '=')).drop 1))

/-- Modelled from the spec: `cookie_header_to_dict` lives in `spoofbot.util`,
which is not included under src/.  Per the spec's cookie header grammar it
parses a semicolon-separated sequence of name=value pairs, e.g. "a=1; b=2",
into an ordered name-to-value mapping; the empty string (the default used for
an absent Cookie header) decodes to the empty mapping. -/
def cookie_header_to_dict (s : String) : List (String × String) :=
  if s == "" then []
  else (splitOnChar ';' s.data).map parseCookiePair

/-- Everything `HarAdapter._do_headers_match` (har.py lines 102-112) computes:
the key-set check together with the two ordered name lists it logs on failure,
the generic header value comparison, and — when either side carries a `Cookie`
header — the cookie sub-comparison on the decoded cookie dicts.  All three are
always evaluated (the Python accumulates with `&=`), so every sub-diagnostic is
produced even when an earlier check already failed. -/
structure HeadersDiag where
  keyOrder : Option (List String × List String)
  headers : DictDiag
  cookies : Option DictDiag
deriving DecidableEq

/-- Embeds `_do_headers_match` together with the diagnostics it emits. -/
def do_headers_match_diag (request_headers cached_headers : HeaderList) :
    HeadersDiag where
  keyOrder :=
    if do_keys_match request_headers cached_headers then none
    else some (headerNames request_headers, headerNames cached_headers)
  headers := are_dicts_same_diag lowerEq request_headers cached_headers
  cookies :=
    if ciMem cached_headers "Cookie" || ciMem request_headers "Cookie" then
      some (are_dicts_same_diag (fun a b => a == b)
        (cookie_header_to_dict (ciGetD request_headers "Cookie" ""))
        (cookie_header_to_dict (ciGetD cached_headers "Cookie" "")))
    else none

/-- Overall verdict of `_do_headers_match`: the conjunction of the key check,
the generic header value check, and (when run) the cookie check. -/
def headers_verdict (d : HeadersDiag) : Bool :=
  d.keyOrder.isNone && dict_verdict d.headers &&
    (match d.cookies with
     | some c => dict_verdict c
     | none => true)

/-- Embeds the boolean result of `HarAdapter._do_headers_match`. -/
def do_headers_match (request_headers cached_headers : HeaderList) : Bool :=
  headers_verdict (do_headers_match_diag request_headers cached_headers)

/-- A prepared request: method, absolute url, headers and body.  The body is a
byte string; an empty body embeds Python's falsy `None`/`''`/`b''`. -/
structure RequestSnapshot where
  method : String
  url : String
  headers : HeaderList
  body : String
deriving DecidableEq

/-- Embeds `HarAdapter._match_requests` (har.py lines 86-100): method and url
must be equal exactly; under strict matching the headers must match and, when
the cached body is non-empty, the bodies must be equal. -/
def match_requests (strict_matching : Bool)
    (request cached_request : RequestSnapshot) : Bool :=
  if cached_request.method == request.method
      && cached_request.url == request.url then
    if strict_matching then
      if !do_headers_match request.headers cached_request.headers then false
      else if cached_request.body != "" then
        if cached_request.body != request.body then false else true
      else true
    else true
  else false

/-- A recorded response. -/
structure ResponseSnapshot where
  status : Nat
  headers : HeaderList
  body : String
deriving DecidableEq

/-- A recorded entry: request, response, and the response's `redirectURL`
(empty string means no redirect). -/
structure Entry where
  request : RequestSnapshot
  response : ResponseSnapshot
  redirectURL : String
deriving DecidableEq

/-- Adapter state: the ordered entry store and the two configuration flags. -/
structure AdapterState where
  entries : List Entry
  strict_matching : Bool
  delete_after_match : Bool
deriving DecidableEq

/-- The failure raised by `send` when the scan is exhausted
("No matching entry in HAR found"). -/
inductive SendError where
  | noMatchFound
deriving DecidableEq

/-- Splits a url's characters at the first `://`, giving scheme and rest. -/
def splitSchemeAux (acc : List Char) : List Char → Option (List Char × List Char)
  | ':' :: '/' :: '/' :: rest => some (acc.reverse, rest)
  | c :: rest => splitSchemeAux (c :: acc) rest
  | [] => none

/-- The scheme of an absolute url, as `parse_url(...).scheme`. -/
def url_scheme (url : String) : String :=
  match splitSchemeAux [] url.data with
  | some (s, _) => String.mk s
  | none => ""

/-- The part of an absolute url after the scheme separator. -/
def url_afterScheme (url : String) : String :=
  match splitSchemeAux [] url.data with
  | some (_, rest) => String.mk rest
  | none => ""

/-- The hostname of an absolute url, as `parse_url(...).hostname`: the
authority component without userinfo and without the port. -/
def url_hostname (url : String) : String :=
  let authority := (url_afterScheme url).data.takeWhile (fun c => c ≠ '/')
  let hostport := (authority.reverse.takeWhile (fun c => c ≠ '@')).reverse
  String.mk (hostport.takeWhile (fun c => c ≠ ':'))

/-- Tests whether the string's first character is the given one; embeds
`str.startswith` on a one-character prefix. -/
def startsWithChar (s : String) (c : Char) : Bool :=
  match s.data with
  | d :: _ => d == c
  | [] => false

/-- Embeds the redirect-URL computation in `send` (har.py lines 67-72): no
redirect when `redirectURL` is empty; a path-absolute target is resolved
against the live request url's scheme and hostname; any other target is
parsed as-is. -/
def resolve_redirect_url (live_url redirect_url : String) : Option String :=
  if redirect_url == "" then none
  else if startsWithChar redirect_url '/' then
    some (url_scheme live_url ++ "://" ++ url_hostname live_url ++ redirect_url)
  else some redirect_url

/-- The first-match scan of `send`'s `for i, entry in enumerate(self.entries)`
loop: returns the entries scanned past (all non-matching), the first matching
entry, and the remainder of the store. -/
def scanEntries (strict_matching : Bool) (live : RequestSnapshot) :
    List Entry → Option (List Entry × Entry × List Entry)
  | [] => none
  | e :: rest =>
    if match_requests strict_matching live e.request then some ([], e, rest)
    else
      match scanEntries strict_matching live rest with
      | some (pre, m, post) => some (e :: pre, m, post)
      | none => none

/-- Embeds `HarAdapter.send` (har.py lines 57-84): scan the store in order;
on the first match delete the matched entry (when `delete_after_match` is set)
and return the recorded response; raise `noMatchFound` when the scan is
exhausted.  The resulting adapter state is returned alongside the outcome. -/
def send (st : AdapterState) (live : RequestSnapshot) :
    Except SendError ResponseSnapshot × AdapterState :=
  match scanEntries st.strict_matching live st.entries with
  | some (pre, e, post) =>
    (Except.ok e.response,
      if st.delete_after_match then { st with entries := pre ++ post } else st)
  | none => (Except.error SendError.noMatchFound, st)

/-! ### Supporting lemmas -/

theorem match_requests_method_url {s : Bool} {live c : RequestSnapshot}
    (h : match_requests s live c = true) :
    c.method = live.method ∧ c.url = live.url := by
  unfold match_requests at h
  split at h
  · next hc =>
      simp only [Bool.and_eq_true, beq_iff_eq] at hc
      exact hc
  · simp at h

theorem match_requests_false_of_headers {live c : RequestSnapshot}
    (h : do_headers_match live.headers c.headers = false) :
    match_requests true live c = false := by
  unfold match_requests
  split
  · simp [h]
  · rfl

theorem scanEntries_cons_true {s : Bool} {live : RequestSnapshot} {e : Entry}
    {rest : List Entry} (hm : match_requests s live e.request = true) :
    scanEntries s live (e :: rest) = some ([], e, rest) := by
  simp [scanEntries, hm]

theorem scanEntries_cons_false {s : Bool} {live : RequestSnapshot} {e : Entry}
    {rest : List Entry} (hm : match_requests s live e.request = false) :
    scanEntries s live (e :: rest)
      = match scanEntries s live rest with
        | some (pre, m, post) => some (e :: pre, m, post)
        | none => none := by
  simp [scanEntries, hm]

theorem scanEntries_none_iff (s : Bool) (live : RequestSnapshot) :
    ∀ l : List Entry, scanEntries s live l = none ↔
      ∀ e ∈ l, match_requests s live e.request = false := by
  intro l
  induction l with
  | nil => simp [scanEntries]
  | cons e rest ih =>
    cases hm : match_requests s live e.request with
    | true =>
      rw [scanEntries_cons_true hm]
      constructor
      · intro h; cases h
      · intro hall
        exact absurd hm (by simp [hall e (List.mem_cons_self e rest)])
    | false =>
      rw [scanEntries_cons_false hm]
      constructor
      · intro h x hx
        rcases List.mem_cons.mp hx with rfl | hx2
        · exact hm
        · cases hs : scanEntries s live rest with
          | some v =>
            rcases v with ⟨pre, m, post⟩
            rw [hs] at h
            simp at h
          | none => exact (ih.mp hs) x hx2
      · intro hall
        have hnone : scanEntries s live rest = none :=
          ih.mpr (fun x hx => hall x (List.mem_cons_of_mem e hx))
        rw [hnone]

theorem scanEntries_eq_some {s : Bool} {live : RequestSnapshot} :
    ∀ {l pre post : List Entry} {m : Entry},
      scanEntries s live l = some (pre, m, post) →
      l = pre ++ m :: post ∧ match_requests s live m.request = true ∧
        ∀ e ∈ pre, match_requests s live e.request = false := by
  intro l
  induction l with
  | nil => intro pre post m h; simp [scanEntries] at h
  | cons e rest ih =>
    intro pre post m h
    cases hm : match_requests s live e.request with
    | true =>
      rw [scanEntries_cons_true hm] at h
      simp only [Option.some.injEq, Prod.mk.injEq] at h
      obtain ⟨h1, h2, h3⟩ := h
      subst h1; subst h2; subst h3
      exact ⟨rfl, hm, by simp⟩
    | false =>
      rw [scanEntries_cons_false hm] at h
      cases hs : scanEntries s live rest with
      | some v =>
        rcases v with ⟨p, mm, pp⟩
        rw [hs] at h
        simp only [Option.some.injEq, Prod.mk.injEq] at h
        obtain ⟨h1, h2, h3⟩ := h
        obtain ⟨hd, hmm, hpre⟩ := ih hs
        subst h2; subst h3
        refine ⟨?_, hmm, ?_⟩
        · rw [← h1, hd]; rfl
        · intro x hx
          rw [← h1] at hx
          rcases List.mem_cons.mp hx with rfl | hx2
          · exact hm
          · exact hpre x hx2
      | none => rw [hs] at h; simp at h

theorem scanEntries_append_first {s : Bool} {live : RequestSnapshot} {m : Entry}
    (hm : match_requests s live m.request = true) :
    ∀ pre : List Entry, (∀ e ∈ pre, match_requests s live e.request = false) →
      ∀ post, scanEntries s live (pre ++ m :: post) = some (pre, m, post) := by
  intro pre
  induction pre with
  | nil => intro _ post; simpa using scanEntries_cons_true hm
  | cons e pre ih =>
    intro hall post
    have he : match_requests s live e.request = false := hall e (by simp)
    have hr := ih (fun x hx => hall x (by simp [hx])) post
    rw [List.cons_append, scanEntries_cons_false he, hr]

theorem send_eq_of_scan_some {st : AdapterState} {live : RequestSnapshot}
    {pre post : List Entry} {e : Entry}
    (h : scanEntries st.strict_matching live st.entries = some (pre, e, post)) :
    send st live = (Except.ok e.response,
      if st.delete_after_match then { st with entries := pre ++ post } else st) := by
  unfold send
  rw [h]

theorem send_eq_of_scan_none {st : AdapterState} {live : RequestSnapshot}
    (h : scanEntries st.strict_matching live st.entries = none) :
    send st live = (Except.error SendError.noMatchFound, st) := by
  unfold send
  rw [h]

theorem ciMem_true_of_name_mem {hs : HeaderList} {k n : String}
    (hk : k ∈ headerNames hs) (he : lowerEq k n = true) : ciMem hs n = true := by
  rcases List.mem_map.mp hk with ⟨p, hp, hpk⟩
  exact List.any_eq_true.mpr ⟨p, hp, by rw [hpk]; exact he⟩

theorem exists_name_of_ciMem {hs : HeaderList} {n : String}
    (h : ciMem hs n = true) : ∃ k ∈ headerNames hs, lowerEq k n = true := by
  rcases List.any_eq_true.mp h with ⟨p, hp, hpe⟩
  exact ⟨p.1, List.mem_map.mpr ⟨p, hp, rfl⟩, hpe⟩

theorem do_keys_match_symm (a b : HeaderList) :
    do_keys_match a b = do_keys_match b a := by
  unfold do_keys_match listSetEq
  exact Bool.and_comm _ _

theorem do_keys_match_false_of_one_sided {a b : HeaderList} {n : String}
    (h1 : ciMem a n = true) (h2 : ciMem b n = false) :
    do_keys_match a b = false := by
  rcases exists_name_of_ciMem h1 with ⟨k, hk, he⟩
  cases hd : do_keys_match a b with
  | false => rfl
  | true =>
    exfalso
    unfold do_keys_match listSetEq at hd
    rw [Bool.and_eq_true] at hd
    have hin : (headerNames b).contains k = true := by
      have := List.all_eq_true.mp hd.1 k hk
      simpa using this
    have hkb : k ∈ headerNames b := by
      simpa [List.contains] using List.elem_iff.mp hin
    have := ciMem_true_of_name_mem hkb he
    rw [this] at h2
    cases h2

theorem ciGet_eq_none_of_not_ciMem {hs : HeaderList} {n : String}
    (h : ciMem hs n = false) : ciGet hs n = none := by
  unfold ciGet
  have hfind : List.find? (fun p => lowerEq p.1 n) hs = none := by
    rw [List.find?_eq_none]
    intro p hp hpe
    have : ciMem hs n = true := List.any_eq_true.mpr ⟨p, hp, hpe⟩
    rw [this] at h
    cases h
  rw [hfind]
  rfl

theorem are_dicts_same_diag_nil_right (eqk : String → String → Bool)
    (d : List (String × String)) :
    are_dicts_same_diag eqk d [] = ⟨[], [], d.map Prod.fst⟩ := by
  simp [are_dicts_same_diag, dlookup]

theorem are_dicts_same_diag_nil_left (eqk : String → String → Bool)
    (d : List (String × String)) :
    are_dicts_same_diag eqk [] d = ⟨d.map Prod.fst, [], []⟩ := by
  simp [are_dicts_same_diag, dlookup]

theorem match_requests_true_strict_eq (live cached : RequestSnapshot) :
    match_requests true live cached
      = (cached.method == live.method && cached.url == live.url
          && do_headers_match live.headers cached.headers
          && (cached.body == "" || cached.body == live.body)) := by
  unfold match_requests
  cases hc : (cached.method == live.method && cached.url == live.url) with
  | false => simp [hc]
  | true =>
    cases hdh : do_headers_match live.headers cached.headers with
    | false => simp [hc, hdh]
    | true =>
      cases hb : (cached.body == "") with
      | true => simp [hc, hdh, hb, bne]
      | false =>
        cases hb2 : (cached.body == live.body) with
        | true => simp [hc, hdh, hb, hb2, bne]
        | false => simp [hc, hdh, hb, hb2, bne]

/-! ### The claims -/

/-- C1: the claim states that under strict mode two header sequences with
identical name/value pairs in a different order fail the match, with the
diagnostic recording the two orderings.  The code disagrees: `_do_keys_match`
compares `dict(...).keys()` views, which Python compares as *sets*, so the
permuted headers pass the key check and the whole strict match succeeds (and
no key-order diagnostic is produced).  This theorem evaluates the embedded
code at the failing input. -/
theorem C1_header_order_ignored :
    do_keys_match [("A", "1"), ("B", "2")] [("B", "2"), ("A", "1")] = true
    ∧ (do_headers_match_diag [("A", "1"), ("B", "2")] [("B", "2"), ("A", "1")]).keyOrder
        = none
    ∧ match_requests true
        ⟨"GET", "https://x/y", [("A", "1"), ("B", "2")], ""⟩
        ⟨"GET", "https://x/y", [("B", "2"), ("A", "1")], ""⟩ = true := by
  decide

/-- C2: the claim states that, all else equal, a live `Cookie: a=1; b=2`
matches a cached `Cookie: b=2; a=1` under strict mode.  The code disagrees:
`_do_headers_match` also runs the generic header-value comparison
(`_are_dicts_same` on the raw header dicts), which compares the `Cookie`
values as plain strings and reports them mismatching, so the match fails.
The dedicated cookie sub-comparison is indeed order-insensitive (it reports
no missing, redundant or mismatching cookie), but it is conjoined with — and
cannot override — the raw string comparison. -/
theorem C2_cookie_order_mismatch_rejected :
    match_requests true
        ⟨"GET", "https://x/y", [("Cookie", "a=1; b=2")], ""⟩
        ⟨"GET", "https://x/y", [("Cookie", "b=2; a=1")], ""⟩ = false
    ∧ (do_headers_match_diag [("Cookie", "a=1; b=2")]
        [("Cookie", "b=2; a=1")]).headers.mismatching = ["Cookie"]
    ∧ (do_headers_match_diag [("Cookie", "a=1; b=2")]
        [("Cookie", "b=2; a=1")]).cookies = some ⟨[], [], []⟩ := by
  decide

/-- C5: in loose mode the match succeeds exactly when the methods and the
urls are equal as strings, regardless of headers and body. -/
theorem C5_loose_mode_iff (live cached : RequestSnapshot) :
    match_requests false live cached = true ↔
      cached.method = live.method ∧ cached.url = live.url := by
  unfold match_requests
  split
  · next hc =>
      simp only [Bool.and_eq_true, beq_iff_eq] at hc
      simp [hc]
  · next hc =>
      constructor
      · intro h; cases h
      · rintro ⟨h1, h2⟩
        exact absurd (by simp [h1, h2]) hc

/-- C6: under strict mode, once method, url and all header/cookie checks
agree, a non-empty cached body must equal the live body byte for byte, while
an empty cached body accepts any live body. -/
theorem C6_body_asymmetry (live cached : RequestSnapshot)
    (hm : cached.method = live.method) (hu : cached.url = live.url)
    (hh : do_headers_match live.headers cached.headers = true) :
    (cached.body ≠ "" →
      (match_requests true live cached = true ↔ live.body = cached.body))
    ∧ (cached.body = "" → match_requests true live cached = true) := by
  have heq := match_requests_true_strict_eq live cached
  constructor
  · intro hb
    constructor
    · intro ht
      rw [heq] at ht
      simp only [Bool.and_eq_true, Bool.or_eq_true, beq_iff_eq] at ht
      rcases ht.2 with h0 | h0
      · exact absurd h0 hb
      · exact h0.symm
    · intro hb2
      rw [heq]
      simp [hm, hu, hh, hb2]
  · intro hb0
    rw [heq]
    simp [hm, hu, hh, hb0]

/-- Witness for C6 at a concrete input: an entry with an empty recorded body
strictly matches a live request with a non-empty body. -/
theorem C6_body_asymmetry_witness :
    match_requests true
      ⟨"GET", "https://x/y", [("A", "1")], "x=2"⟩
      ⟨"GET", "https://x/y", [("A", "1")], ""⟩ = true := by
  exact (C6_body_asymmetry
    ⟨"GET", "https://x/y", [("A", "1")], "x=2"⟩
    ⟨"GET", "https://x/y", [("A", "1")], ""⟩
    rfl rfl (by decide)).2 rfl

/-- C7: the claim states that a failing header key check short-circuits, so
that neither the cookie sub-comparison nor the body comparison runs and the
diagnostic records only the two header-name orderings.  Counterexample: the
code aggregates all checks with `&=`, so on this input the key check fails
and yet the cookie sub-comparison runs (producing a mismatching-cookie
diagnostic) and the generic header comparison records missing/mismatching
headers beyond the two orderings. -/
theorem C7_short_circuit_counterexample :
    do_keys_match [("Cookie", "a=1")] [("Cookie", "a=2"), ("B", "1")] = false
    ∧ (do_headers_match_diag [("Cookie", "a=1")]
        [("Cookie", "a=2"), ("B", "1")]).cookies = some ⟨[], ["a"], []⟩
    ∧ (do_headers_match_diag [("Cookie", "a=1")]
        [("Cookie", "a=2"), ("B", "1")]).headers = ⟨["B"], ["Cookie"], []⟩ := by
  decide

/-- C7 (amended): whenever the header key check fails the overall strict
match fails and the body comparison is skipped (the result is `false`
whatever the live body is), and the diagnostic records the two header-name
orderings; however the header-value and cookie sub-comparisons are still
performed, so whenever either side carries a `Cookie` header a cookie
sub-diagnostic is also produced. -/
theorem C7_amended_no_short_circuit (live cached : RequestSnapshot)
    (h : do_keys_match live.headers cached.headers = false) :
    match_requests true live cached = false
    ∧ (∀ b : String, match_requests true { live with body := b } cached = false)
    ∧ (do_headers_match_diag live.headers cached.headers).keyOrder
        = some (headerNames live.headers, headerNames cached.headers)
    ∧ ((ciMem cached.headers "Cookie" || ciMem live.headers "Cookie") = true →
        (do_headers_match_diag live.headers cached.headers).cookies.isSome = true) := by
  have hdm : do_headers_match live.headers cached.headers = false := by
    unfold do_headers_match headers_verdict do_headers_match_diag
    rw [h]
    simp
  refine ⟨match_requests_false_of_headers hdm, ?_, ?_, ?_⟩
  · intro b
    exact @match_requests_false_of_headers { live with body := b } cached hdm
  · simp [do_headers_match_diag, h]
  · intro hcookie
    simp [do_headers_match_diag, hcookie]

/-- Witness for the amended C7 at a concrete input. -/
theorem C7_amended_no_short_circuit_witness :
    match_requests true
        ⟨"GET", "https://x/y", [("Cookie", "a=1")], ""⟩
        ⟨"GET", "https://x/y", [("Cookie", "a=2"), ("B", "1")], ""⟩ = false
    ∧ (do_headers_match_diag [("Cookie", "a=1")]
        [("Cookie", "a=2"), ("B", "1")]).cookies.isSome = true := by
  have h := C7_amended_no_short_circuit
    ⟨"GET", "https://x/y", [("Cookie", "a=1")], ""⟩
    ⟨"GET", "https://x/y", [("Cookie", "a=2"), ("B", "1")], ""⟩
    (by decide)
  exact ⟨h.1, h.2.2.2 (by decide)⟩

/-- Sample live request used by the concrete witnesses below. -/
def sampleLive : RequestSnapshot := ⟨"GET", "https://x/y", [("H", "1")], "b"⟩

/-- Sample recorded entry whose request matches `sampleLive` loosely. -/
def sampleEntryOne : Entry :=
  ⟨⟨"GET", "https://x/y", [], ""⟩, ⟨200, [], "one"⟩, ""⟩

/-- Second recorded entry with the same request as `sampleEntryOne` but a
different response. -/
def sampleEntryTwo : Entry :=
  ⟨⟨"GET", "https://x/y", [], ""⟩, ⟨200, [], "two"⟩, ""⟩

/-- Sample recorded entry whose method and url differ from `sampleLive`. -/
def sampleEntryPost : Entry :=
  ⟨⟨"POST", "https://x/z", [], ""⟩, ⟨200, [], "p"⟩, ""⟩

/-- C3: `send` answers with the response derived from the first entry, in
store insertion order, whose recorded request matches; with
`delete_after_match` that entry is removed from the store before returning,
so a second identical live request matches the next equal entry, or fails
when none remains. -/
theorem C3_first_match_consumption (st : AdapterState) (live : RequestSnapshot)
    (pre post : List Entry) (e : Entry)
    (hdecomp : st.entries = pre ++ e :: post)
    (hpre : ∀ x ∈ pre, match_requests st.strict_matching live x.request = false)
    (he : match_requests st.strict_matching live e.request = true)
    (hdel : st.delete_after_match = true) :
    send st live = (Except.ok e.response, { st with entries := pre ++ post })
    ∧ ((∀ x ∈ post, match_requests st.strict_matching live x.request = false) →
        (send { st with entries := pre ++ post } live).1
          = Except.error SendError.noMatchFound)
    ∧ (∀ pre2 post2 : List Entry, ∀ e2 : Entry, post = pre2 ++ e2 :: post2 →
        (∀ x ∈ pre2, match_requests st.strict_matching live x.request = false) →
        match_requests st.strict_matching live e2.request = true →
        send { st with entries := pre ++ post } live
          = (Except.ok e2.response,
             { st with entries := (pre ++ pre2) ++ post2 })) := by
  have hscan : scanEntries st.strict_matching live st.entries
      = some (pre, e, post) := by
    rw [hdecomp]
    exact scanEntries_append_first he pre hpre post
  refine ⟨?_, ?_, ?_⟩
  · rw [send_eq_of_scan_some hscan, hdel]
    simp
  · intro hall
    have hnone : scanEntries st.strict_matching live (pre ++ post) = none := by
      rw [scanEntries_none_iff]
      intro x hx
      rcases List.mem_append.mp hx with h1 | h2
      · exact hpre x h1
      · exact hall x h2
    rw [@send_eq_of_scan_none { st with entries := pre ++ post } live hnone]
  · intro pre2 post2 e2 hpost hpre2 he2
    have hscan2 : scanEntries st.strict_matching live (pre ++ post)
        = some (pre ++ pre2, e2, post2) := by
      rw [hpost, ← List.append_assoc]
      exact scanEntries_append_first he2 (pre ++ pre2)
        (fun x hx => (List.mem_append.mp hx).elim (hpre x) (hpre2 x)) post2
    rw [@send_eq_of_scan_some { st with entries := pre ++ post } live
      (pre ++ pre2) post2 e2 hscan2]
    simp [hdel]

/-- Witness for C3: with two equal recorded entries, the first send consumes
the first entry and answers its response, and a second identical send
consumes and answers the second. -/
theorem C3_first_match_consumption_witness :
    send ⟨[sampleEntryOne, sampleEntryTwo], false, true⟩ sampleLive
      = (Except.ok sampleEntryOne.response, ⟨[sampleEntryTwo], false, true⟩)
    ∧ send ⟨[sampleEntryTwo], false, true⟩ sampleLive
      = (Except.ok sampleEntryTwo.response, ⟨[], false, true⟩) := by
  have h := C3_first_match_consumption ⟨[sampleEntryOne, sampleEntryTwo], false, true⟩
    sampleLive [] [sampleEntryTwo] sampleEntryOne rfl (by simp) (by decide) rfl
  exact ⟨h.1, h.2.2 [] [] sampleEntryTwo rfl (by simp) (by decide)⟩

/-- C4: `send` fails with `noMatchFound` exactly when no entry of the store
matches the live request; in particular it fails on an empty store, and on a
store none of whose entries agrees with the live request on method and
url. -/
theorem C4_no_match_found (st : AdapterState) (live : RequestSnapshot) :
    ((send st live).1 = Except.error SendError.noMatchFound ↔
      ∀ e ∈ st.entries, match_requests st.strict_matching live e.request = false)
    ∧ (st.entries = [] →
        (send st live).1 = Except.error SendError.noMatchFound)
    ∧ ((∀ e ∈ st.entries,
          ¬(e.request.method = live.method ∧ e.request.url = live.url)) →
        (send st live).1 = Except.error SendError.noMatchFound) := by
  have hiff : (send st live).1 = Except.error SendError.noMatchFound ↔
      ∀ e ∈ st.entries, match_requests st.strict_matching live e.request = false := by
    constructor
    · intro h
      cases hs : scanEntries st.strict_matching live st.entries with
      | some v =>
        rcases v with ⟨pre, m, post⟩
        rw [send_eq_of_scan_some hs] at h
        simp at h
      | none => exact (scanEntries_none_iff _ _ _).mp hs
    · intro hall
      rw [send_eq_of_scan_none ((scanEntries_none_iff _ _ _).mpr hall)]
  refine ⟨hiff, ?_, ?_⟩
  · intro h0
    apply hiff.mpr
    rw [h0]
    intro e he
    cases he
  · intro hmu
    apply hiff.mpr
    intro e he
    cases hm : match_requests st.strict_matching live e.request with
    | false => rfl
    | true => exact absurd (match_requests_method_url hm) (hmu e he)

/-- Witness for C4: an empty store, and a store whose only entry has a
different method and url, both make `send` fail. -/
theorem C4_no_match_found_witness :
    (send ⟨[], true, true⟩ sampleLive).1 = Except.error SendError.noMatchFound
    ∧ (send ⟨[sampleEntryPost], true, true⟩ sampleLive).1
        = Except.error SendError.noMatchFound := by
  refine ⟨(C4_no_match_found ⟨[], true, true⟩ sampleLive).2.1 rfl, ?_⟩
  exact (C4_no_match_found ⟨[sampleEntryPost], true, true⟩ sampleLive).2.2 (by decide)

/-- C8: for a matched entry the returned response is the recorded response
unchanged; an empty redirect target resolves to no redirect, a path-absolute
target is resolved against the live request url's scheme and host, and any
other target is used as an absolute url unchanged — including the spec's two
concrete examples. -/
theorem C8_redirect_resolution (live : RequestSnapshot) (entry : Entry)
    (st : AdapterState) (hst : st.entries = [entry])
    (hmatch : match_requests st.strict_matching live entry.request = true) :
    (send st live).1 = Except.ok entry.response
    ∧ (entry.redirectURL = "" →
        resolve_redirect_url live.url entry.redirectURL = none)
    ∧ (startsWithChar entry.redirectURL '/' = true →
        resolve_redirect_url live.url entry.redirectURL
          = some (url_scheme live.url ++ "://" ++ url_hostname live.url
              ++ entry.redirectURL))
    ∧ (entry.redirectURL ≠ "" → startsWithChar entry.redirectURL '/' = false →
        resolve_redirect_url live.url entry.redirectURL = some entry.redirectURL)
    ∧ resolve_redirect_url "https://host.test/a" "/next"
        = some "https://host.test/next"
    ∧ resolve_redirect_url "https://host.test/a" "https://other.test/y"
        = some "https://other.test/y" := by
  refine ⟨?_, ?_, ?_, ?_, by decide, by decide⟩
  · have hscan : scanEntries st.strict_matching live st.entries
        = some ([], entry, []) := by
      rw [hst]
      exact scanEntries_cons_true hmatch
    rw [send_eq_of_scan_some hscan]
  · intro h0
    simp [resolve_redirect_url, h0]
  · intro hsw
    have hne : (entry.redirectURL == "") = false := by
      cases hb : (entry.redirectURL == "") with
      | false => rfl
      | true =>
        have h0 : entry.redirectURL = "" := by simpa using hb
        rw [h0] at hsw
        exact absurd hsw (by decide)
    simp [resolve_redirect_url, hne, hsw]
  · intro hne hsw
    have hne2 : (entry.redirectURL == "") = false := by simpa using hne
    simp [resolve_redirect_url, hne2, hsw]

/-- Witness for C8: a matched entry with redirect target `/next` returns its
recorded response, and the target resolves against the live origin. -/
theorem C8_redirect_resolution_witness :
    (send ⟨[⟨⟨"GET", "https://host.test/a", [], ""⟩, ⟨302, [], ""⟩, "/next"⟩],
        false, true⟩ ⟨"GET", "https://host.test/a", [], ""⟩).1
      = Except.ok (⟨302, [], ""⟩ : ResponseSnapshot)
    ∧ resolve_redirect_url "https://host.test/a" "/next"
        = some "https://host.test/next" := by
  have h := C8_redirect_resolution ⟨"GET", "https://host.test/a", [], ""⟩
    ⟨⟨"GET", "https://host.test/a", [], ""⟩, ⟨302, [], ""⟩, "/next"⟩
    ⟨[⟨⟨"GET", "https://host.test/a", [], ""⟩, ⟨302, [], ""⟩, "/next"⟩], false, true⟩
    rfl (by decide)
  exact ⟨h.1, h.2.2.2.2.1⟩

/-- C9: `send` preserves the entry-store invariant: the new store is a
sublist of the old one (nothing added, nothing reordered, relative order of
the remaining entries kept), at most one entry is removed, a failing send or
a send with `delete_after_match` disabled leaves the state unchanged, and
the removed entry is exactly the matched one. -/
theorem C9_store_invariant (st : AdapterState) (live : RequestSnapshot) :
    List.Sublist (send st live).2.entries st.entries
    ∧ st.entries.length ≤ (send st live).2.entries.length + 1
    ∧ ((send st live).1 = Except.error SendError.noMatchFound →
        (send st live).2 = st)
    ∧ (st.delete_after_match = false → (send st live).2 = st)
    ∧ (∀ r, (send st live).1 = Except.ok r → st.delete_after_match = true →
        ∃ pre e post, st.entries = pre ++ e :: post
          ∧ match_requests st.strict_matching live e.request = true
          ∧ r = e.response ∧ (send st live).2.entries = pre ++ post) := by
  cases hs : scanEntries st.strict_matching live st.entries with
  | none =>
    rw [send_eq_of_scan_none hs]
    refine ⟨List.Sublist.refl _, Nat.le_succ _, fun _ => rfl, fun _ => rfl, ?_⟩
    intro r hr
    simp at hr
  | some v =>
    rcases v with ⟨pre, e, post⟩
    obtain ⟨hdec, hmatch, hpre⟩ := scanEntries_eq_some hs
    rw [send_eq_of_scan_some hs]
    cases hdel : st.delete_after_match with
    | true =>
      rw [if_pos rfl]
      refine ⟨?_, ?_, ?_, ?_, ?_⟩
      · show List.Sublist (pre ++ post) st.entries
        rw [hdec]
        exact List.Sublist.append_left (List.sublist_cons_self e post) pre
      · show st.entries.length ≤ (pre ++ post).length + 1
        rw [hdec]
        simp only [List.length_append, List.length_cons]
        omega
      · intro habs
        simp at habs
      · intro hdf
        simp at hdf
      · intro r hr _
        refine ⟨pre, e, post, hdec, hmatch, ?_, rfl⟩
        simp only [Except.ok.injEq] at hr
        exact hr.symm
    | false =>
      rw [if_neg (by simp)]
      refine ⟨List.Sublist.refl _, Nat.le_succ _, fun _ => rfl, fun _ => rfl, ?_⟩
      intro r hr habs
      simp at habs

/-- Witness for C9: with deletion disabled a successful send leaves the
state unchanged. -/
theorem C9_store_invariant_witness :
    (send ⟨[sampleEntryOne], false, false⟩ sampleLive).2
      = ⟨[sampleEntryOne], false, false⟩ := by
  exact (C9_store_invariant ⟨[sampleEntryOne], false, false⟩ sampleLive).2.2.2.1 rfl

/-- C10: when exactly one of the two requests carries a `Cookie` header
under strict mode, the absent side decodes to the empty cookie mapping, the
cookie sub-comparison still runs and reports every cookie of the present
side (as redundant when the live side carries it, as missing when the cached
side does), and the header comparison fails the match. -/
theorem C10_one_sided_cookie (request_headers cached_headers : HeaderList)
    (hx : ciMem request_headers "Cookie" ≠ ciMem cached_headers "Cookie") :
    do_headers_match request_headers cached_headers = false
    ∧ (ciMem request_headers "Cookie" = true →
        ciMem cached_headers "Cookie" = false →
        cookie_header_to_dict (ciGetD cached_headers "Cookie" "") = []
        ∧ (do_headers_match_diag request_headers cached_headers).cookies
            = some ⟨[], [],
                (cookie_header_to_dict
                  (ciGetD request_headers "Cookie" "")).map Prod.fst⟩)
    ∧ (ciMem cached_headers "Cookie" = true →
        ciMem request_headers "Cookie" = false →
        cookie_header_to_dict (ciGetD request_headers "Cookie" "") = []
        ∧ (do_headers_match_diag request_headers cached_headers).cookies
            = some ⟨(cookie_header_to_dict
                  (ciGetD cached_headers "Cookie" "")).map Prod.fst,
                [], []⟩) := by
  have hkeys : do_keys_match request_headers cached_headers = false := by
    cases hr : ciMem request_headers "Cookie" with
    | true =>
      cases hc : ciMem cached_headers "Cookie" with
      | true => rw [hr, hc] at hx; exact absurd rfl hx
      | false => exact do_keys_match_false_of_one_sided hr hc
    | false =>
      cases hc : ciMem cached_headers "Cookie" with
      | true =>
        rw [do_keys_match_symm]
        exact do_keys_match_false_of_one_sided hc hr
      | false => rw [hr, hc] at hx; exact absurd rfl hx
  have hdm : do_headers_match request_headers cached_headers = false := by
    unfold do_headers_match headers_verdict do_headers_match_diag
    rw [hkeys]
    simp
  refine ⟨hdm, ?_, ?_⟩
  · intro hr hc
    have hnil : cookie_header_to_dict (ciGetD cached_headers "Cookie" "") = [] := by
      unfold ciGetD
      rw [ciGet_eq_none_of_not_ciMem hc]
      rfl
    refine ⟨hnil, ?_⟩
    simp only [do_headers_match_diag]
    rw [hr, hc]
    simp only [Bool.false_or, if_true]
    rw [hnil, are_dicts_same_diag_nil_right]
  · intro hc hr
    have hnil : cookie_header_to_dict (ciGetD request_headers "Cookie" "") = [] := by
      unfold ciGetD
      rw [ciGet_eq_none_of_not_ciMem hr]
      rfl
    refine ⟨hnil, ?_⟩
    simp only [do_headers_match_diag]
    rw [hr, hc]
    simp only [Bool.or_false, if_true]
    rw [hnil, are_dicts_same_diag_nil_left]

/-- Witness for C10: a live request carrying `Cookie: a=1; b=2` against a
cached request with no Cookie header fails the header comparison, with both
live cookies reported redundant. -/
theorem C10_one_sided_cookie_witness :
    do_headers_match [("Cookie", "a=1; b=2")] [("X", "1")] = false
    ∧ (do_headers_match_diag [("Cookie", "a=1; b=2")] [("X", "1")]).cookies
        = some ⟨[], [], ["a", "b"]⟩ := by
  have h := C10_one_sided_cookie [("Cookie", "a=1; b=2")] [("X", "1")] (by decide)
  refine ⟨h.1, ?_⟩
  have h2 := (h.2.1 (by decide) (by decide)).2
  rw [h2]
  decide

end Har
